import Mathlib

/-!
Verification of the villa-upsell admin dashboard client logic.

The definitions below are a shallow embedding of the client-side logic of
the repository: the Orders view (search, sort, selection, bulk status
update, derived statistics, per-order and bulk action affordances), the
Analytics revenue chart trimming and bar scaling, the image-upload step of
the property/upsell forms, and the session initialization of the auth
provider.  JavaScript numbers are modelled as rationals, date values as
integer timestamps (the value of getTime), and nullable relations as
Option fields.
-/

open List

namespace VillaAdmin

/-- Order record (interface Order in the types module), restricted to what
the Orders view reads.  The optional related records are represented by
the one field each that the view accesses (upsell?.title, property?.name,
vendor?.name); created_at is the timestamp new Date(created_at).getTime()
yields; amount is the numeric value parseFloat(order.amount.toString())
yields. -/
structure Order where
  id : Nat
  guest_name : String
  guest_email : String
  amount : ℚ
  currency : String
  status : String
  created_at : Int
  upsell_title : Option String
  property_name : Option String
  vendor_name : Option String
deriving DecidableEq, Repr

/-- JavaScript String.prototype.includes: substring containment of the
needle in the haystack. -/
def jsIncludes (hay needle : String) : Bool :=
  decide (needle.toList <:+: hay.toList)

/-- The search predicate of filteredAndSortedOrders (Orders.tsx, lines
91-100): each of the five fields is lowercased and tested for containment
of the lowercased search term; an absent optional relation contributes a
falsy value, exactly as the optional-chaining expression does. -/
def matchesSearch (searchTerm : String) (o : Order) : Bool :=
  jsIncludes o.guest_name.toLower searchTerm.toLower ||
  jsIncludes o.guest_email.toLower searchTerm.toLower ||
  (match o.upsell_title with
   | some t => jsIncludes t.toLower searchTerm.toLower
   | none => false) ||
  (match o.property_name with
   | some n => jsIncludes n.toLower searchTerm.toLower
   | none => false) ||
  (match o.vendor_name with
   | some n => jsIncludes n.toLower searchTerm.toLower
   | none => false)

/-- The statusOrder lookup of the status sort comparator (Orders.tsx,
line 116), with the fallback 0 that the JavaScript expression
statusOrder[...] with a vertical-bar-vertical-bar 0 default produces for
unknown statuses. -/
def statusOrder (s : String) : Nat :=
  if s = "pending" then 1
  else if s = "confirmed" then 2
  else if s = "fulfilled" then 3
  else if s = "cancelled" then 4
  else 0

/-- The three sort keys of the Orders view. -/
inductive SortBy where
  | date
  | amount
  | status
deriving DecidableEq, Repr

/-- The two sort directions of the Orders view. -/
inductive SortDir where
  | asc
  | desc
deriving DecidableEq, Repr

/-- The numeric value the comparator of Orders.tsx lines 103-125 derives
from an order for the chosen sort key. -/
def sortVal (sb : SortBy) (o : Order) : ℚ :=
  match sb with
  | SortBy.date => (o.created_at : ℚ)
  | SortBy.amount => o.amount
  | SortBy.status => (statusOrder o.status : ℚ)

/-- The ordering the comparator return value aValue - bValue (ascending)
or bValue - aValue (descending) induces on orders. -/
def sortRel (sb : SortBy) (dir : SortDir) (a b : Order) : Prop :=
  match dir with
  | SortDir.asc => sortVal sb a ≤ sortVal sb b
  | SortDir.desc => sortVal sb b ≤ sortVal sb a

instance sortRelDecidable (sb : SortBy) (dir : SortDir) :
    DecidableRel (sortRel sb dir) := fun a b =>
  match dir with
  | SortDir.asc => inferInstanceAs (Decidable (sortVal sb a ≤ sortVal sb b))
  | SortDir.desc => inferInstanceAs (Decidable (sortVal sb b ≤ sortVal sb a))

instance sortRelTotal (sb : SortBy) (dir : SortDir) :
    IsTotal Order (sortRel sb dir) where
  total a b := by
    cases dir
    · exact le_total (sortVal sb a) (sortVal sb b)
    · exact le_total (sortVal sb b) (sortVal sb a)

instance sortRelTrans (sb : SortBy) (dir : SortDir) :
    IsTrans Order (sortRel sb dir) where
  trans a b c := by
    cases dir
    · exact fun h₁ h₂ => le_trans h₁ h₂
    · exact fun h₁ h₂ => le_trans h₂ h₁

/-- The sort step of filteredAndSortedOrders (Orders.tsx, lines 103-125):
a comparator-driven stable sort, modelled by insertion sort over the
induced ordering. -/
def sortOrders (sb : SortBy) (dir : SortDir) (l : List Order) : List Order :=
  List.insertionSort (sortRel sb dir) l

/-- filteredAndSortedOrders (Orders.tsx, lines 88-128): the fetched
collection (none while not yet loaded, in which case the memo yields the
empty list) is narrowed by the search predicate and then sorted. -/
def filteredAndSortedOrders (searchTerm : String) (sb : SortBy)
    (dir : SortDir) (orders : Option (List Order)) : List Order :=
  match orders with
  | none => []
  | some os => sortOrders sb dir (os.filter (matchesSearch searchTerm))

/-- The derived statistics record of the Orders view (Orders.tsx, lines
131-142). -/
structure OrdersStats where
  total : Nat
  revenue : ℚ
  pending : Nat
  confirmed : Nat
  fulfilled : Nat
  cancelled : Nat
deriving DecidableEq, Repr

/-- The stats memo (Orders.tsx, lines 131-142): computed from the fetched
collection, before the client-side search narrows it. -/
def statsOf (orders : Option (List Order)) : OrdersStats :=
  match orders with
  | none => ⟨0, 0, 0, 0, 0, 0⟩
  | some os =>
    ⟨os.length,
     os.foldl (fun s o => s + o.amount) 0,
     (os.filter fun o => decide (o.status = "pending")).length,
     (os.filter fun o => decide (o.status = "confirmed")).length,
     (os.filter fun o => decide (o.status = "fulfilled")).length,
     (os.filter fun o => decide (o.status = "cancelled")).length⟩

/-- The component-local state of the Orders view that the handlers under
verification read or write. -/
structure OrdersViewState where
  searchTerm : String
  statusFilter : String
  dateFilter : String
  vendorFilter : String
  selectedOrders : List Nat
  sortBy : SortBy
  sortDir : SortDir
  orders : Option (List Order)
deriving DecidableEq, Repr

/-- The list the view renders in both layouts: the search-narrowed, sorted
collection. -/
def displayedOrders (st : OrdersViewState) : List Order :=
  filteredAndSortedOrders st.searchTerm st.sortBy st.sortDir st.orders

/-- The statistics the view renders, which read only the fetched
collection. -/
def renderedStats (st : OrdersViewState) : OrdersStats :=
  statsOf st.orders

/-- handleSelectAll (Orders.tsx, lines 182-188): when the selection size
equals the size of the currently filtered list the selection is cleared,
otherwise it becomes the id list of the currently filtered list. -/
def handleSelectAll (st : OrdersViewState) : OrdersViewState :=
  if st.selectedOrders.length = (displayedOrders st).length then
    { st with selectedOrders := [] }
  else
    { st with selectedOrders := (displayedOrders st).map Order.id }

/-- Payload of the bulk-update request the view puts to
/orders/bulk-update (Orders.tsx, lines 71-73). -/
structure BulkRequest where
  ids : List Nat
  status : String
deriving DecidableEq, Repr

/-- handleBulkAction (Orders.tsx, lines 190-193): with an empty selection
it returns without doing anything; otherwise it triggers the bulk
mutation once, with the selected ids and the chosen status. -/
def handleBulkAction (st : OrdersViewState) (status : String) :
    OrdersViewState × Option BulkRequest :=
  if st.selectedOrders.length = 0 then (st, none)
  else (st, some ⟨st.selectedOrders, status⟩)

/-- The settlement of the bulk mutation (Orders.tsx, lines 74-83): on
success the selection is cleared, on error the state is untouched. -/
def onBulkResult (st : OrdersViewState) (success : Bool) : OrdersViewState :=
  if success then { st with selectedOrders := [] } else st

/-- The target statuses the per-order actions menu offers for an order of
the given status (Orders.tsx, lines 512-553 in the card view and 675-716
in the table view, which render the same three conditional buttons). -/
def cardActions (status : String) : List String :=
  (if status = "pending" then ["confirmed"] else []) ++
  (if status = "confirmed" then ["fulfilled"] else []) ++
  (if status = "pending" ∨ status = "confirmed" then ["cancelled"] else [])

/-- The target statuses the bulk actions bar offers (Orders.tsx, lines
412-443): the bar is rendered whenever the selection is non-empty and
always carries the three buttons confirm, fulfill, cancel. -/
def bulkActions (selected : List Nat) : List String :=
  if 0 < selected.length then ["confirmed", "fulfilled", "cancelled"] else []

/-- The legal transition edges of the order status machine as the
specification states them. -/
def legalEdge (src tgt : String) : Prop :=
  (src = "pending" ∧ (tgt = "confirmed" ∨ tgt = "cancelled")) ∨
  (src = "confirmed" ∧ (tgt = "fulfilled" ∨ tgt = "cancelled"))

instance legalEdgeDecidable (src tgt : String) : Decidable (legalEdge src tgt) :=
  inferInstanceAs (Decidable
    ((src = "pending" ∧ (tgt = "confirmed" ∨ tgt = "cancelled")) ∨
     (src = "confirmed" ∧ (tgt = "fulfilled" ∨ tgt = "cancelled"))))

/-- The Orders view makes a status-update action with the given target
available for the given order: either through the per-order actions menu
of that order, or through the bulk actions bar while the order is part of
the selection. -/
def uiOffersTransition (o : Order) (selected : List Nat) (tgt : String) : Prop :=
  tgt ∈ cardActions o.status ∨ (o.id ∈ selected ∧ tgt ∈ bulkActions selected)

instance uiOffersTransitionDecidable (o : Order) (selected : List Nat)
    (tgt : String) : Decidable (uiOffersTransition o selected tgt) :=
  inferInstanceAs (Decidable
    (tgt ∈ cardActions o.status ∨
      (o.id ∈ selected ∧ tgt ∈ bulkActions selected)))

/-- One entry of the revenue series of the Analytics view (interface
RevenueData); date is the timestamp new Date(item.date).getTime()
yields. -/
structure RevenueItem where
  date : Int
  total : ℚ
deriving DecidableEq, Repr

/-- The chronological comparison the chart sort comparator induces. -/
def dateLe (a b : RevenueItem) : Prop := a.date ≤ b.date

instance dateLeDecidable : DecidableRel dateLe := fun a b =>
  inferInstanceAs (Decidable (a.date ≤ b.date))

instance dateLeTotal : IsTotal RevenueItem dateLe where
  total a b := le_total a.date b.date

instance dateLeTrans : IsTrans RevenueItem dateLe where
  trans _ _ _ h₁ h₂ := le_trans h₁ h₂

/-- recentRevenueData (Analytics.tsx, lines 50-55): keep the entries with
strictly positive total, take the last five of them (slice(-5), modelled
by dropping all but the final five), and sort chronologically. -/
def recentRevenueData (revenueData : Option (List RevenueItem)) :
    List RevenueItem :=
  match revenueData with
  | none => []
  | some rd =>
    let positive := rd.filter fun i => decide (0 < i.total)
    List.insertionSort dateLe (positive.drop (positive.length - 5))

/-- recentMaxRevenue (Analytics.tsx, line 57): Math.max over the totals of
the trimmed series when it is non-empty, 0 otherwise. -/
def recentMaxRevenue (l : List RevenueItem) : ℚ :=
  match l.map RevenueItem.total with
  | [] => 0
  | t :: ts => ts.foldl max t

/-- The bar height percentage (Analytics.tsx, line 198): total divided by
the trimmed maximum, times 100, with a 0 fallback when the maximum is not
positive. -/
def barHeight (item : RevenueItem) (maxRev : ℚ) : ℚ :=
  if 0 < maxRev then (item.total / maxRev) * 100 else 0

/-- The wise_account_details sub-record of the property form. -/
structure WiseAccountDetails where
  bank_name : Option String
  account_number : Option String
  routing_number : Option String
  swift_code : Option String
  account_holder_name : Option String
  instructions : Option String
deriving DecidableEq, Repr

/-- interface PropertyFormData of PropertyForm.tsx. -/
structure PropertyFormData where
  name : String
  description : String
  instagram_url : String
  language : String
  currency : String
  tags : List String
  hero_image_url : Option String
  payment_processor : String
  payout_schedule : String
  wise_account_details : Option WiseAccountDetails
deriving DecidableEq, Repr

/-- interface UpsellFormData of UpsellForm.tsx.  The availability_rules
value is an uninterpreted JSON payload the form passes through; it is modelled
by its serialized text. -/
structure UpsellFormData where
  property_id : Nat
  primary_vendor_id : Nat
  secondary_vendor_id : Option Nat
  title : String
  description : String
  price : ℚ
  category : String
  image_url : Option String
  availability_rules : String
  is_active : Bool
  sort_order : Int
deriving DecidableEq, Repr

/-- onSubmit of PropertyForm.tsx (lines 167-198): when a local file was
chosen it is uploaded first and the returned URL replaces hero_image_url
in the payload; when the upload fails no mutation is sent (none); when no
file was chosen the payload carries the form value unchanged.  The upload
call is abstracted by a function from the file handle to the outcome of
the POST to /upload-image. -/
def propertySubmit (data : PropertyFormData) (selectedFile : Option String)
    (upload : String → Except String String) : Option PropertyFormData :=
  match selectedFile with
  | none => some { data with hero_image_url := data.hero_image_url }
  | some f =>
    match upload f with
    | Except.ok url => some { data with hero_image_url := some url }
    | Except.error _ => none

/-- onSubmit of UpsellForm.tsx (lines 131-160), identical shape with the
image_url field. -/
def upsellSubmit (data : UpsellFormData) (selectedFile : Option String)
    (upload : String → Except String String) : Option UpsellFormData :=
  match selectedFile with
  | none => some { data with image_url := data.image_url }
  | some f =>
    match upload f with
    | Except.ok url => some { data with image_url := some url }
    | Except.error _ => none

/-- interface User of the auth context. -/
structure User where
  id : Nat
  name : String
  email : String
  role : String
  stripe_account_id : Option String
  is_active : Bool
deriving DecidableEq, Repr

/-- The auth provider state: in-memory user and token, plus the token
persisted in localStorage. -/
structure AuthState where
  user : Option User
  token : Option String
  storedToken : Option String
deriving DecidableEq, Repr

/-- The state the provider mounts with: no user, and the token read from
localStorage. -/
def initialAuthState (stored : Option String) : AuthState :=
  ⟨none, stored, stored⟩

/-- initAuth of the AuthProvider: with no token it does nothing; with a
token it issues the who-am-I request, adopting the returned user on
success and, on failure, removing the persisted token and nulling the
in-memory token.  The second component is the list of error notifications
shown to the user, which is empty on every path. -/
def initAuth (st : AuthState) (meResult : Except String User) :
    AuthState × List String :=
  match st.token with
  | none => (st, [])
  | some _ =>
    match meResult with
    | Except.ok u => ({ st with user := some u }, [])
    | Except.error _ => ({ st with token := none, storedToken := none }, [])

/-- The four order statuses in the domain ordering of the status sort. -/
def claimStatuses : List String :=
  ["pending", "confirmed", "fulfilled", "cancelled"]

/-- Case-insensitive substring containment, the matching the specification
describes for the order search. -/
def ciSubstr (q s : String) : Prop :=
  q.toLower.toList <:+: s.toLower.toList

/-- Case-insensitive substring containment against an optional field: an
absent field matches nothing. -/
def ciSubstrOpt (q : String) : Option String → Prop
  | some s => ciSubstr q s
  | none => False

/-- Concrete order used to exercise the theorems on concrete inputs. -/
def mkOrder (i : Nat) (s : String) : Order :=
  ⟨i, "", "", 0, "USD", s, 0, none, none, none⟩

/-- Concrete input list for the status-sort theorem: the four statuses in
scrambled order. -/
def c2Input : List Order :=
  [mkOrder 1 "fulfilled", mkOrder 2 "pending",
   mkOrder 3 "cancelled", mkOrder 4 "confirmed"]

/-- Concrete Orders view state with a non-empty selection. -/
def c4State : OrdersViewState :=
  ⟨"", "", "", "", [5, 9], SortBy.date, SortDir.desc, none⟩

/-- Concrete Orders view state with two loaded orders. -/
def c5State : OrdersViewState :=
  ⟨"", "", "", "", [], SortBy.date, SortDir.desc,
   some [mkOrder 1 "pending", mkOrder 2 "fulfilled"]⟩

/-- Concrete revenue series for the analytics theorem. -/
def c6Input : List RevenueItem :=
  [⟨2, 5⟩, ⟨1, 0⟩, ⟨3, 3⟩]

/-- Concrete order in a terminal status, used by the transition
counterexample. -/
def c7Order : Order :=
  ⟨7, "guest", "guest@example.com", 10, "USD", "fulfilled", 0, none, none, none⟩

/-- Concrete Orders view state selecting the terminal-status order. -/
def c7State : OrdersViewState :=
  ⟨"", "", "", "", [7], SortBy.date, SortDir.desc, some [c7Order]⟩

/-- Concrete property form data. -/
def c8Property : PropertyFormData :=
  ⟨"Villa", "desc", "", "en", "USD", ["beach"], some "old.png",
   "stripe", "manual", none⟩

/-- Concrete upsell form data. -/
def c8Upsell : UpsellFormData :=
  ⟨1, 2, none, "Chef", "dinner", 50, "chef", some "old.png", "", true, 0⟩

/-- Concrete upload outcome that always succeeds with a fixed URL. -/
def c8Upload : String → Except String String :=
  fun _ => Except.ok "https://cdn.example.com/new.png"

/-- Concrete Orders view state with an empty selection. -/
def c10State : OrdersViewState :=
  ⟨"", "", "", "", [], SortBy.date, SortDir.desc, some [mkOrder 1 "pending"]⟩

/-- Claim C3: activating select-all either clears the selection or sets it
to exactly the id list of the currently filtered (search-narrowed) list;
every selected id belongs to an order of that filtered list. -/
theorem selectAll_filtered (st : OrdersViewState) :
    ((handleSelectAll st).selectedOrders = [] ∨
      (handleSelectAll st).selectedOrders = (displayedOrders st).map Order.id) ∧
    ∀ i ∈ (handleSelectAll st).selectedOrders,
      ∃ o ∈ displayedOrders st, o.id = i := by
  unfold handleSelectAll
  by_cases h : st.selectedOrders.length = (displayedOrders st).length
  · simp [h]
  · refine ⟨Or.inr (by simp [h]), ?_⟩
    intro i hi
    simp only [h, if_neg, ite_false] at hi
    simpa using List.mem_map.mp hi

/-- Witness for claim C3 at a concrete state. -/
theorem selectAll_filtered_witness :
    (handleSelectAll c4State).selectedOrders = [] ∨
      (handleSelectAll c4State).selectedOrders =
        (displayedOrders c4State).map Order.id :=
  (selectAll_filtered c4State).1

/-- Claim C4: with a non-empty selection a bulk action issues exactly one
batch request carrying exactly the selected ids and the chosen status and
leaves the state untouched; the mutation settlement clears the selection
on success and leaves the state unchanged on error. -/
theorem bulkAction_request (st : OrdersViewState) (status : String)
    (h : st.selectedOrders ≠ []) :
    handleBulkAction st status = (st, some ⟨st.selectedOrders, status⟩) ∧
    onBulkResult st true = { st with selectedOrders := [] } ∧
    onBulkResult st false = st := by
  have h0 : ¬ st.selectedOrders.length = 0 := by
    simpa [List.length_eq_zero] using h
  refine ⟨?_, rfl, rfl⟩
  unfold handleBulkAction
  simp [h0]

/-- Witness for claim C4 at a concrete non-empty selection. -/
theorem bulkAction_request_witness :
    handleBulkAction c4State "confirmed" =
      (c4State, some ⟨[5, 9], "confirmed"⟩) ∧
    onBulkResult c4State true = { c4State with selectedOrders := [] } ∧
    onBulkResult c4State false = c4State :=
  bulkAction_request c4State "confirmed" (by decide)

/-- Claim C5: the rendered statistics are invariant under any change of
the client-side search term, and are computed from the full fetched
collection: its length, the left fold of the amounts, and the per-status
filter counts. -/
theorem stats_from_fetched (st : OrdersViewState) (q : String)
    (os : List Order) (h : st.orders = some os) :
    renderedStats { st with searchTerm := q } = renderedStats st ∧
    renderedStats st =
      ⟨os.length,
       os.foldl (fun s o => s + o.amount) 0,
       (os.filter fun o => decide (o.status = "pending")).length,
       (os.filter fun o => decide (o.status = "confirmed")).length,
       (os.filter fun o => decide (o.status = "fulfilled")).length,
       (os.filter fun o => decide (o.status = "cancelled")).length⟩ := by
  refine ⟨rfl, ?_⟩
  simp only [renderedStats, h]
  rfl

/-- Witness for claim C5 at a concrete loaded state and search term. -/
theorem stats_from_fetched_witness :
    renderedStats { c5State with searchTerm := "chef" } = renderedStats c5State ∧
    renderedStats c5State =
      ⟨[mkOrder 1 "pending", mkOrder 2 "fulfilled"].length,
       [mkOrder 1 "pending", mkOrder 2 "fulfilled"].foldl
         (fun s o => s + o.amount) 0,
       ([mkOrder 1 "pending", mkOrder 2 "fulfilled"].filter
         fun o => decide (o.status = "pending")).length,
       ([mkOrder 1 "pending", mkOrder 2 "fulfilled"].filter
         fun o => decide (o.status = "confirmed")).length,
       ([mkOrder 1 "pending", mkOrder 2 "fulfilled"].filter
         fun o => decide (o.status = "fulfilled")).length,
       ([mkOrder 1 "pending", mkOrder 2 "fulfilled"].filter
         fun o => decide (o.status = "cancelled")).length⟩ :=
  stats_from_fetched c5State "chef" _ rfl

/-- Claim C8: for both image-bearing forms, choosing a local file makes
the uploaded URL replace the image field of the payload, a failed upload
sends no mutation, and choosing no file passes the form data through
unchanged, image field included. -/
theorem form_image_submit (pd : PropertyFormData) (ud : UpsellFormData)
    (upload : String → Except String String) :
    propertySubmit pd none upload = some pd ∧
    (∀ f url, upload f = Except.ok url →
      propertySubmit pd (some f) upload =
        some { pd with hero_image_url := some url }) ∧
    (∀ f e, upload f = Except.error e →
      propertySubmit pd (some f) upload = none) ∧
    upsellSubmit ud none upload = some ud ∧
    (∀ f url, upload f = Except.ok url →
      upsellSubmit ud (some f) upload =
        some { ud with image_url := some url }) ∧
    (∀ f e, upload f = Except.error e →
      upsellSubmit ud (some f) upload = none) := by
  refine ⟨rfl, ?_, ?_, rfl, ?_, ?_⟩ <;>
    intro f x h <;> simp [propertySubmit, upsellSubmit, h]

/-- Witness for claim C8 at concrete form data and a succeeding upload. -/
theorem form_image_submit_witness :
    propertySubmit c8Property (some "photo.png") c8Upload =
      some { c8Property with
              hero_image_url := some "https://cdn.example.com/new.png" } ∧
    upsellSubmit c8Upsell none c8Upload = some c8Upsell :=
  ⟨(form_image_submit c8Property c8Upsell c8Upload).2.1 "photo.png" _ rfl,
   (form_image_submit c8Property c8Upsell c8Upload).2.2.2.1⟩

/-- Claim C9: during session initialization, a failing who-am-I check
removes the persisted token and nulls the in-memory token with no error
notification, while a successful check adopts the returned user; with no
stored token nothing happens. -/
theorem initAuth_clears_on_failure (t : String) (u : User) (err : String) :
    (∀ r, initAuth (initialAuthState none) r = (initialAuthState none, [])) ∧
    initAuth (initialAuthState (some t)) (Except.error err) =
      (⟨none, none, none⟩, []) ∧
    initAuth (initialAuthState (some t)) (Except.ok u) =
      (⟨some u, some t, some t⟩, []) :=
  ⟨fun _ => rfl, rfl, rfl⟩

/-- Claim C10: with an empty selection a bulk action issues no request and
leaves the whole view state unchanged. -/
theorem bulkAction_empty_noop (st : OrdersViewState) (status : String)
    (h : st.selectedOrders = []) :
    handleBulkAction st status = (st, none) := by
  unfold handleBulkAction
  simp [h]

/-- Witness for claim C10 at a concrete state with loaded orders and an
empty selection. -/
theorem bulkAction_empty_noop_witness :
    handleBulkAction c10State "confirmed" = (c10State, none) :=
  bulkAction_empty_noop c10State "confirmed" rfl

/-- Counterexample to claim C7 as stated: the bulk actions bar is
rendered for any non-empty selection and always offers all three target
statuses, so with a fulfilled (terminal) order selected the UI does make
a status-update action out of a terminal status available, and activating
it issues the corresponding batch request. -/
theorem transitions_counterexample :
    c7Order.status = "fulfilled" ∧
    uiOffersTransition c7Order c7State.selectedOrders "cancelled" ∧
    ¬ legalEdge "fulfilled" "cancelled" ∧
    handleBulkAction c7State "cancelled" =
      (c7State, some ⟨[7], "cancelled"⟩) := by
  refine ⟨rfl, Or.inr ⟨by decide, by decide⟩, by decide, rfl⟩

/-- Claim C7 as amended: the per-order actions menu offers transitions
only along the legal edges and offers nothing out of the terminal
statuses; the bulk actions bar, by contrast, offers all three target
statuses for every non-empty selection regardless of the statuses of the
selected orders. -/
theorem transitions_amended :
    (∀ s t, t ∈ cardActions s → legalEdge s t) ∧
    cardActions "fulfilled" = [] ∧
    cardActions "cancelled" = [] ∧
    (∀ (sel : List Nat) t, sel ≠ [] →
      (t ∈ bulkActions sel ↔
        t = "confirmed" ∨ t = "fulfilled" ∨ t = "cancelled")) := by
  refine ⟨?_, by decide, by decide, ?_⟩
  · intro s t ht
    unfold cardActions at ht
    by_cases h1 : s = "pending"
    · subst h1
      simp at ht
      exact Or.inl ⟨rfl, ht⟩
    · by_cases h2 : s = "confirmed"
      · subst h2
        simp at ht
        exact Or.inr ⟨rfl, ht⟩
      · simp [h1, h2] at ht
  · intro sel t hsel
    have hpos : 0 < sel.length := List.length_pos.mpr hsel
    unfold bulkActions
    simp [hpos]

/-- Witness for the amended claim C7 at concrete statuses and a concrete
selection. -/
theorem transitions_amended_witness :
    legalEdge "pending" "cancelled" ∧
    ("fulfilled" ∈ bulkActions [3] ↔
      "fulfilled" = "confirmed" ∨ "fulfilled" = "fulfilled" ∨
        "fulfilled" = "cancelled") :=
  ⟨transitions_amended.1 "pending" "cancelled" (by decide),
   transitions_amended.2.2.2 [3] "fulfilled" (by decide)⟩

/-- The boolean search predicate of the code agrees with the
case-insensitive substring matching the specification describes. -/
theorem matchesSearch_eq_true_iff (q : String) (o : Order) :
    matchesSearch q o = true ↔
      (ciSubstr q o.guest_name ∨ ciSubstr q o.guest_email ∨
        ciSubstrOpt q o.upsell_title ∨ ciSubstrOpt q o.property_name ∨
        ciSubstrOpt q o.vendor_name) := by
  obtain ⟨i, gn, ge, amt, cur, s, ca, ut, pn, vn⟩ := o
  cases ut <;> cases pn <;> cases vn <;>
    simp [matchesSearch, jsIncludes, ciSubstr, ciSubstrOpt,
      Bool.or_eq_true, decide_eq_true_eq, or_assoc]

/-- Claim C1: an order is kept in the displayed list exactly when it
belongs to the fetched collection and the query is a case-insensitive
substring of at least one of guest name, guest email, upsell title,
property name, vendor name. -/
theorem search_keeps_iff (q : String) (sb : SortBy) (dir : SortDir)
    (os : List Order) (o : Order) :
    o ∈ filteredAndSortedOrders q sb dir (some os) ↔
      o ∈ os ∧
        (ciSubstr q o.guest_name ∨ ciSubstr q o.guest_email ∨
          ciSubstrOpt q o.upsell_title ∨ ciSubstrOpt q o.property_name ∨
          ciSubstrOpt q o.vendor_name) := by
  have hperm : filteredAndSortedOrders q sb dir (some os) ~
      os.filter (matchesSearch q) :=
    List.perm_insertionSort _ _
  rw [hperm.mem_iff, List.mem_filter, matchesSearch_eq_true_iff]

/-- On the four known statuses, the comparator value determines the
status. -/
theorem mem_claimStatuses_val (s : String) (h : s ∈ claimStatuses) :
    (statusOrder s = 1 → s = "pending") ∧
    (statusOrder s = 2 → s = "confirmed") ∧
    (statusOrder s = 3 → s = "fulfilled") ∧
    (statusOrder s = 4 → s = "cancelled") := by
  fin_cases h <;> decide

/-- A permutation of the four statuses whose comparator values read
1, 2, 3, 4 is the canonical status list. -/
theorem statuses_of_vals (t : List String) (hp : List.Perm t claimStatuses)
    (hv : t.map statusOrder = [1, 2, 3, 4]) : t = claimStatuses := by
  rcases t with _ | ⟨a, t⟩
  · simp at hv
  rcases t with _ | ⟨b, t⟩
  · simp at hv
  rcases t with _ | ⟨c, t⟩
  · simp at hv
  rcases t with _ | ⟨d, t⟩
  · simp at hv
  simp only [List.map_cons, List.cons.injEq] at hv
  obtain ⟨h1, h2, h3, h4, h5⟩ := hv
  have ht : t = [] := by simpa using h5
  subst ht
  have ha : a ∈ claimStatuses := hp.subset (by simp)
  have hb : b ∈ claimStatuses := hp.subset (by simp)
  have hc : c ∈ claimStatuses := hp.subset (by simp)
  have hd : d ∈ claimStatuses := hp.subset (by simp)
  rw [(mem_claimStatuses_val a ha).1 h1,
      (mem_claimStatuses_val b hb).2.1 h2,
      (mem_claimStatuses_val c hc).2.2.1 h3,
      (mem_claimStatuses_val d hd).2.2.2 h4]
  rfl

/-- Claim C2: for a list of orders carrying the four statuses exactly once
each, sorting by the status key ascending yields the statuses in the
order pending, confirmed, fulfilled, cancelled, and descending yields the
exact reverse, whatever the input order. -/
theorem status_sort_canonical (l : List Order)
    (h : List.Perm (l.map Order.status) claimStatuses) :
    (sortOrders SortBy.status SortDir.asc l).map Order.status =
      claimStatuses ∧
    (sortOrders SortBy.status SortDir.desc l).map Order.status =
      ["cancelled", "fulfilled", "confirmed", "pending"] := by
  constructor
  · have hperm : sortOrders SortBy.status SortDir.asc l ~ l :=
      List.perm_insertionSort _ l
    have hsorted : List.Sorted (sortRel SortBy.status SortDir.asc)
        (sortOrders SortBy.status SortDir.asc l) :=
      List.sorted_insertionSort _ l
    have hmap : (sortOrders SortBy.status SortDir.asc l).map Order.status ~
        claimStatuses := (hperm.map Order.status).trans h
    have hpair : List.Pairwise (· ≤ ·)
        (((sortOrders SortBy.status SortDir.asc l).map Order.status).map
          statusOrder) := by
      rw [List.map_map]
      refine hsorted.map _ ?_
      intro a b hab
      have hq : (statusOrder a.status : ℚ) ≤ (statusOrder b.status : ℚ) := hab
      exact_mod_cast hq
    have hpv : List.Perm (((sortOrders SortBy.status SortDir.asc l).map
        Order.status).map statusOrder) [1, 2, 3, 4] := by
      have hm := hmap.map statusOrder
      have he : claimStatuses.map statusOrder = [1, 2, 3, 4] := by decide
      rwa [he] at hm
    have h4 : ((sortOrders SortBy.status SortDir.asc l).map Order.status).map
        statusOrder = [1, 2, 3, 4] :=
      List.eq_of_perm_of_sorted hpv hpair (by decide)
    exact statuses_of_vals _ hmap h4
  · have hperm : sortOrders SortBy.status SortDir.desc l ~ l :=
      List.perm_insertionSort _ l
    have hsorted : List.Sorted (sortRel SortBy.status SortDir.desc)
        (sortOrders SortBy.status SortDir.desc l) :=
      List.sorted_insertionSort _ l
    have hmap : (sortOrders SortBy.status SortDir.desc l).map Order.status ~
        claimStatuses := (hperm.map Order.status).trans h
    have hpair : List.Pairwise (fun x y : ℕ => y ≤ x)
        (((sortOrders SortBy.status SortDir.desc l).map Order.status).map
          statusOrder) := by
      rw [List.map_map]
      refine hsorted.map _ ?_
      intro a b hab
      have hq : (statusOrder b.status : ℚ) ≤ (statusOrder a.status : ℚ) := hab
      exact_mod_cast hq
    have hrevpair : List.Pairwise (· ≤ ·)
        ((((sortOrders SortBy.status SortDir.desc l).map Order.status).map
          statusOrder).reverse) :=
      List.pairwise_reverse.mpr hpair
    have hpv : List.Perm ((((sortOrders SortBy.status SortDir.desc l).map
        Order.status).map statusOrder).reverse) [1, 2, 3, 4] := by
      have hm := hmap.map statusOrder
      have he : claimStatuses.map statusOrder = [1, 2, 3, 4] := by decide
      rw [he] at hm
      exact (List.reverse_perm _).trans hm
    have h4r : (((sortOrders SortBy.status SortDir.desc l).map
        Order.status).map statusOrder).reverse = [1, 2, 3, 4] :=
      List.eq_of_perm_of_sorted hpv hrevpair (by decide)
    have hrt : (((sortOrders SortBy.status SortDir.desc l).map
        Order.status).reverse).map statusOrder = [1, 2, 3, 4] := by
      rw [List.map_reverse]
      exact h4r
    have hpr : List.Perm (((sortOrders SortBy.status SortDir.desc l).map
        Order.status).reverse) claimStatuses :=
      (List.reverse_perm _).trans hmap
    have hfin := statuses_of_vals _ hpr hrt
    have hout : (sortOrders SortBy.status SortDir.desc l).map Order.status =
        claimStatuses.reverse := by
      rw [← hfin, List.reverse_reverse]
    rw [hout]
    rfl

/-- Witness for claim C2 at a concrete scrambled input. -/
theorem status_sort_canonical_witness :
    List.Perm (c2Input.map Order.status) claimStatuses ∧
    (sortOrders SortBy.status SortDir.asc c2Input).map Order.status =
      claimStatuses ∧
    (sortOrders SortBy.status SortDir.desc c2Input).map Order.status =
      ["cancelled", "fulfilled", "confirmed", "pending"] :=
  ⟨by decide, (status_sort_canonical c2Input (by decide)).1,
   (status_sort_canonical c2Input (by decide)).2⟩

/-- The seed of a maximum fold bounds the fold from below. -/
theorem le_foldl_max (b : ℚ) (l : List ℚ) : b ≤ l.foldl max b := by
  induction l generalizing b with
  | nil => exact le_refl b
  | cons x xs ih => exact le_trans (le_max_left b x) (ih (max b x))

/-- Every member of a list bounds its maximum fold from below. -/
theorem mem_le_foldl_max {y : ℚ} {l : List ℚ} (hy : y ∈ l) (b : ℚ) :
    y ≤ l.foldl max b := by
  induction l generalizing b with
  | nil => cases hy
  | cons x xs ih =>
    rcases List.mem_cons.mp hy with rfl | hy₂
    · exact le_trans (le_max_right b y) (le_foldl_max _ _)
    · exact ih hy₂ _

/-- Every entry of the trimmed series is bounded by recentMaxRevenue. -/
theorem total_le_recentMax {x : RevenueItem} {l : List RevenueItem}
    (hx : x ∈ l) : x.total ≤ recentMaxRevenue l := by
  rcases l with _ | ⟨hd, tl⟩
  · cases hx
  · show x.total ≤ (tl.map RevenueItem.total).foldl max hd.total
    rcases List.mem_cons.mp hx with rfl | hx₂
    · exact le_foldl_max _ _
    · exact mem_le_foldl_max (List.mem_map_of_mem _ hx₂) _

/-- Claim C6: the rendered chart data is a chronologically sorted copy of
the last at most five strictly positive entries of the revenue series, so
at most five bars render, each with strictly positive revenue, and every
bar height is its total divided by the trimmed maximum, times 100. -/
theorem analytics_chart (rd : List RevenueItem) :
    (recentRevenueData (some rd)).length ≤ 5 ∧
    (∀ x ∈ recentRevenueData (some rd), 0 < x.total) ∧
    List.Sorted dateLe (recentRevenueData (some rd)) ∧
    List.Perm (recentRevenueData (some rd))
      ((rd.filter fun i => decide (0 < i.total)).drop
        ((rd.filter fun i => decide (0 < i.total)).length - 5)) ∧
    ∀ x ∈ recentRevenueData (some rd),
      barHeight x (recentMaxRevenue (recentRevenueData (some rd))) =
        x.total / recentMaxRevenue (recentRevenueData (some rd)) * 100 := by
  have hperm : List.Perm (recentRevenueData (some rd))
      ((rd.filter fun i => decide (0 < i.total)).drop
        ((rd.filter fun i => decide (0 < i.total)).length - 5)) :=
    List.perm_insertionSort _ _
  have hpos : ∀ x ∈ recentRevenueData (some rd), 0 < x.total := by
    intro x hx
    have hx₂ := hperm.subset hx
    have hx₃ := List.mem_of_mem_drop hx₂
    exact of_decide_eq_true (List.mem_filter.mp hx₃).2
  refine ⟨?_, hpos, List.sorted_insertionSort _ _, hperm, ?_⟩
  · rw [hperm.length_eq, List.length_drop]
    omega
  · intro x hx
    have h1 : 0 < recentMaxRevenue (recentRevenueData (some rd)) :=
      lt_of_lt_of_le (hpos x hx) (total_le_recentMax hx)
    unfold barHeight
    rw [if_pos h1]

/-- Witness for claim C6 at a concrete series holding a zero-revenue
day. -/
theorem analytics_chart_witness :
    (recentRevenueData (some c6Input)).length ≤ 5 ∧
    (⟨3, 3⟩ : RevenueItem) ∈ recentRevenueData (some c6Input) ∧
    (0 : ℚ) < (⟨3, 3⟩ : RevenueItem).total ∧
    barHeight ⟨3, 3⟩ (recentMaxRevenue (recentRevenueData (some c6Input))) =
      (⟨3, 3⟩ : RevenueItem).total /
        recentMaxRevenue (recentRevenueData (some c6Input)) * 100 :=
  ⟨(analytics_chart c6Input).1, by decide, by decide,
   (analytics_chart c6Input).2.2.2.2 ⟨3, 3⟩ (by decide)⟩

end VillaAdmin
